import Mathlib

/-!
Shallow embedding of the nng HTTP/1.x server engine from
`src/supplemental/http/server.c`, together with theorems settling the
frozen specification claims about it.

Modelling conventions: C strings are NUL-free lists of bytes (`List Nat`);
a byte buffer that may hold an embedded NUL is read back as a C string by
`cstr`.  Machine integers that can go negative (the `starts` counter) are
`Int`.  Reads past the end of a buffer (undefined behaviour in C) are made
explicit by an `Option` result.
-/

/-- Byte string of an ASCII literal; C strings are modelled as NUL-free
lists of byte values. -/
def strBytes (s : String) : List Nat := s.data.map Char.toNat

/-- Reading a NUL-terminated C string out of a byte buffer stops at the
first 0 byte. -/
def cstr (l : List Nat) : List Nat := l.takeWhile (fun c => c != 0)

/-- Translation of the C library predicate `isxdigit`, on byte values. -/
def isxdigit (c : Nat) : Bool :=
  decide ((48 ≤ c ∧ c ≤ 57) ∨ (97 ≤ c ∧ c ≤ 102) ∨ (65 ≤ c ∧ c ≤ 70))

/-- Translation of `http_hexval` (server.c:227): numeric value of a hex
digit character, 0 for anything else. -/
def http_hexval (c : Nat) : Nat :=
  if 48 ≤ c ∧ c ≤ 57 then c - 48
  else if 97 ≤ c ∧ c ≤ 102 then c - 97 + 10
  else if 65 ≤ c ∧ c ≤ 70 then c - 65 + 10
  else 0

/-- ASCII lower-casing of one byte, as done by `tolower` inside the
case-insensitive string helpers. -/
def lowerByte (c : Nat) : Nat := if 65 ≤ c ∧ c ≤ 90 then c + 32 else c

/-- ASCII lower-casing of a byte string. -/
def lowerStr (l : List Nat) : List Nat := l.map lowerByte

/-- Translation of the percent-decoding loop of `http_uri_canonify`
(server.c:272-292).  The loop reads `tmp` and writes `dst` in the same
buffer (writes never overtake reads, so a pure function is faithful).
After a valid `%HH` escape the code has no `continue`, so control falls
through to the `garbage in, garbage out` lines: the decoded byte is
stored a second time and `tmp` advances once more.  When the escape sits
at the very end of the string that extra `tmp++` steps past the
terminating NUL and the next loop test reads out of bounds; that
undefined read is modelled as `none`. -/
def http_percent_decode : List Nat → Option (List Nat)
  | [] => some []
  | c :: tl =>
    if c = 37 then
      match tl with
      | [] => some [37]
      | [h1] => (http_percent_decode [h1]).map (fun r => 37 :: r)
      | [h1, h2] =>
        if isxdigit h1 && isxdigit h2 then none
        else (http_percent_decode [h1, h2]).map (fun r => 37 :: r)
      | h1 :: h2 :: x :: tl3 =>
        if isxdigit h1 && isxdigit h2 then
          (http_percent_decode tl3).map (fun r =>
            (http_hexval h1 * 16 + http_hexval h2) ::
              (http_hexval h1 * 16 + http_hexval h2) :: r)
        else (http_percent_decode (h1 :: h2 :: x :: tl3)).map (fun r => 37 :: r)
    else (http_percent_decode tl).map (fun r => c :: r)
termination_by l => l.length
decreasing_by
  all_goals simp
  all_goals omega

/-- Bytes of the literal `"http://"`. -/
def httpPre : List Nat := strBytes "http://"

/-- Bytes of the literal `"https://"`. -/
def httpsPre : List Nat := strBytes "https://"

/-- Truth of `nni_strncasecmp(p, lit, strlen(lit)) == 0` for a lower-case
literal `lit`: the first `strlen(lit)` bytes of `p` match `lit`
case-insensitively. -/
def startsWithCase (lit p : List Nat) : Bool :=
  lowerStr (p.take lit.length) == lit

/-- Translation of `http_uri_canonify` (server.c:242-294): chop the query
string at the first `?`, strip an absolute `http://` / `https://`
authority down to the first `/` (returning the literal `"/"` when there
is none), then percent-decode in place.  `none` marks the out-of-bounds
read described at `http_percent_decode`. -/
def http_uri_canonify (path : List Nat) : Option (List Nat) :=
  let p1 := path.takeWhile (fun c => c != 63)
  if startsWithCase httpPre p1 || startsWithCase httpsPre p1 then
    let p2 := ((p1.dropWhile (fun c => c != 58)).drop 3).dropWhile (fun c => c != 47)
    if p2.isEmpty then some [47]
    else http_percent_decode p2
  else http_percent_decode p1

/-- Percent decoding as the specification describes it (section 4.1,
step 3): each `%HH` escape with two hexadecimal digits becomes the single
decoded byte, consuming the three characters of the escape; any other `%`
is copied verbatim as one byte.  Stated only to be compared with
`http_percent_decode`. -/
def spec_percent_decode : List Nat → List Nat
  | [] => []
  | 37 :: h1 :: h2 :: tl =>
    if isxdigit h1 && isxdigit h2 then
      (http_hexval h1 * 16 + http_hexval h2) :: spec_percent_decode tl
    else 37 :: spec_percent_decode (h1 :: h2 :: tl)
  | c :: tl => c :: spec_percent_decode tl

/-- Bytes of the method literal `"HEAD"`. -/
def headStr : List Nat := strBytes "HEAD"

/-- Bytes of the method literal `"GET"`. -/
def getStr : List Nat := strBytes "GET"

/-- A registered handler record (struct `http_handler`, server.c:30).  The
callback, opaque argument, destructor and refcount play no part in the
claims settled here and are omitted; `h_method` and `h_path` are non-NULL
by construction (registration rejects NULL), `h_host` keeps its
optionality. -/
structure HttpHandler where
  h_method : List Nat
  h_path : List Nat
  h_host : Option (List Nat)
  h_is_dir : Bool
  h_is_upgrader : Bool
deriving DecidableEq

/-- The caller-supplied handler descriptor (`nni_http_handler`) as
`http_server_add_handler` receives it: method, path and host may be NULL,
and the callback may be missing (`h_has_cb = false` models a NULL
`h_cb`). -/
structure NniHttpHandler where
  h_method : Option (List Nat)
  h_path : Option (List Nat)
  h_host : Option (List Nat)
  h_is_dir : Bool
  h_is_upgrader : Bool
  h_has_cb : Bool
deriving DecidableEq

/-- Error codes surfaced by the registration path. -/
inductive NngErr where
  | EINVAL
  | EADDRINUSE
deriving DecidableEq

/-- Trailing-slash trimming applied to the new handler's path
(server.c:875-883): chop every trailing `/`. -/
def trimSlashes (p : List Nat) : List Nat :=
  ((p.reverse).dropWhile (fun c => c == 47)).reverse

/-- Host compatibility test of the collision loop (server.c:891-895):
the pair conflicts unless both hosts are present and differ
case-insensitively (`nni_strcasecmp`, modelled from the spec's
case-insensitive host comparison since its body lives outside
`src/`). -/
def hostCompat : Option (List Nat) → Option (List Nat) → Bool
  | some a, some b => lowerStr a == lowerStr b
  | _, _ => true

/-- Path collision test (server.c:900-904): compare the first
`min(len(existing), len(new))` bytes. -/
def pathsCollide (p1 p2 : List Nat) : Bool :=
  p1.take (min p1.length p2.length) == p2.take (min p1.length p2.length)

/-- Translation of `http_server_add_handler` (server.c:838-918) on the
registry state (the server's ordered handler list).  Missing method, path
or callback, or the method `"HEAD"`, is `invalid-argument`; a collision
with a registered handler of string-equal method and compatible host is
`address-in-use`; otherwise the handler is appended with its path
trailing-slash-trimmed. -/
def http_server_add_handler (hs : List HttpHandler) (hh : NniHttpHandler) :
    Except NngErr (List HttpHandler) :=
  match hh.h_method, hh.h_path with
  | some m, some p =>
    if hh.h_has_cb = false ∨ m = headStr then .error .EINVAL
    else
      let p' := trimSlashes p
      if hs.any (fun h2 =>
          hostCompat h2.h_host hh.h_host && (h2.h_method == m) &&
            pathsCollide h2.h_path p') then
        .error .EADDRINUSE
      else
        .ok (hs ++ [⟨m, p', hh.h_host, hh.h_is_dir, hh.h_is_upgrader⟩])
  | _, _ => .error .EINVAL

/-- Substring containment, the truth of `strstr(hay, needle) != NULL`
(case-sensitive, C library semantics). -/
def strstr_has (hay needle : List Nat) : Bool :=
  (List.range (hay.length + 1)).any (fun i => List.isPrefixOf needle (hay.drop i))

/-- Case-insensitive substring containment, the truth of
`nni_strcasestr(hay, needle) != NULL`.  Modelled from the spec:
`nni_strcasestr` lives outside `src/`; the spec describes it as a
case-insensitive substring search. -/
def nni_strcasestr_has (hay needle : List Nat) : Bool :=
  strstr_has (lowerStr hay) (lowerStr needle)

/-- Host matching of the dispatch loop (server.c:383-410): a handler
without a host matches any request; a handler with a host insists on a
request `Host:` header that matches case-insensitively over the
handler's host with a single trailing `.` on the handler's host ignored,
after which the request host must end, continue with a `:` port suffix,
or be exactly a lone trailing `.`. -/
def hostMatch (hhost reqHost : Option (List Nat)) : Bool :=
  match hhost with
  | none => true
  | some hh =>
    match reqHost with
    | none => false
    | some val =>
      let len := if hh.getLast? == some 46 then hh.length - 1 else hh.length
      (lowerStr (val.take len) == lowerStr (hh.take len)) &&
        (match val.drop len with
         | [] => true
         | c :: rest => c == 58 || (c == 46 && rest.isEmpty))

/-- Path matching of the dispatch loop (server.c:414-430): the handler
path must be a prefix of the request path, and the byte right after it
must be the end of the string, or a `/` ending the string, or a `/` with
more characters when the handler is a directory. -/
def pathMatch (hpath path : List Nat) (isDir : Bool) : Bool :=
  if List.isPrefixOf hpath path then
    match path.drop hpath.length with
    | [] => true
    | c :: rest => if c = 47 then (rest.isEmpty || isDir) else false
  else false

/-- Method matching of the dispatch loop (server.c:432-441): exact string
equality, with `HEAD` also accepted by a `GET` handler. -/
def methodMatch (reqM hM : List Nat) : Bool :=
  reqM == hM || (reqM == headStr && hM == getStr)

/-- Result of the registry lookup inside `http_sconn_rxdone`. -/
inductive LookupResult where
  | found (h : HttpHandler)
  | methodNotAllowed
  | notFound
deriving DecidableEq

/-- The dispatch loop of `http_sconn_rxdone` (server.c:381-455) as a
recursion over the registration-ordered handler list, with the `badmeth`
accumulator: the first handler matching host, path and method wins; if
none wins, `badmeth` records whether some handler matched host and path
but not method (405 instead of 404). -/
def lookupAux (reqHost : Option (List Nat)) (path reqM : List Nat) :
    List HttpHandler → Bool → LookupResult
  | [], badmeth => if badmeth then .methodNotAllowed else .notFound
  | h :: rest, badmeth =>
    if hostMatch h.h_host reqHost && pathMatch h.h_path path h.h_is_dir then
      if methodMatch reqM h.h_method then .found h
      else lookupAux reqHost path reqM rest true
    else lookupAux reqHost path reqM rest badmeth

/-- Registry lookup for one received request (server.c:381-455). -/
def http_server_lookup (hs : List HttpHandler) (reqHost : Option (List Nat))
    (path reqM : List Nat) : LookupResult :=
  lookupAux reqHost path reqM hs false

/-- A parsed request as `http_sconn_rxdone` consumes it via the codec
collaborator.  Modelled from the spec: the codec (outside `src/`)
yields `version`, `method`, `uri` and headers, of which only `Host` and
`Connection` are read here. -/
structure NniHttpReq where
  version : Option (List Nat)
  method : List Nat
  uri : List Nat
  hostHeader : Option (List Nat)
  connHeader : Option (List Nat)
deriving DecidableEq

/-- Bytes of the literal `"HTTP/1.1"`. -/
def http11 : List Nat := strBytes "HTTP/1.1"

/-- Bytes of the literal `"HTTP/1."`. -/
def http1dot : List Nat := strBytes "HTTP/1."

/-- Bytes of the literal `"close"`. -/
def closeStr : List Nat := strBytes "close"

/-- What `http_sconn_rxdone` does after a successful receive: synthesize
an error response with some status, dispatch to a handler, or hit the
out-of-bounds read inside `http_uri_canonify`. -/
inductive RxOutcome where
  | errorResp (status : Nat)
  | dispatch (h : HttpHandler)
  | undefinedRead
deriving DecidableEq

/-- Translation of the successful-receive path of `http_sconn_rxdone`
(server.c:315-470).  Input: the parsed request, the session's `close`
flag before the callback, and the handler registry.  Output: the
session's `close` flag as left by the version and `Connection:` header
checks, paired with what the session does next.  A request with no
version is 400 and a version outside `HTTP/1.`* is 505, both with
`close=true`; a version other than exactly `HTTP/1.1`, or a request
`Connection:` header containing `close` case-insensitively, forces
`close=true`; then the canonified URI is looked up, giving a dispatch,
a 405 or a 404. -/
def http_sconn_rxdone (req : NniHttpReq) (close0 : Bool) (hs : List HttpHandler) :
    Bool × RxOutcome :=
  match req.version with
  | none => (true, .errorResp 400)
  | some v =>
    if ¬ List.isPrefixOf http1dot v then (true, .errorResp 505)
    else
      let c1 := if v ≠ http11 then true else close0
      let c2 := if (match req.connHeader with
                    | some cv => nni_strcasestr_has cv closeStr
                    | none => false) then true else c1
      match http_uri_canonify req.uri with
      | none => (c2, .undefinedRead)
      | some path =>
        match http_server_lookup hs req.hostHeader (cstr path) req.method with
        | .found h => (c2, .dispatch h)
        | .methodNotAllowed => (c2, .errorResp 405)
        | .notFound => (c2, .errorResp 404)

/-- Translation of the response branch of `http_sconn_cbdone`
(server.c:509-520), reached when the handler callback succeeded with a
non-null response and the upgrader-takeover case did not apply.  Input:
the session's `close` flag and the response's `Connection:` header value
(the codec's `nni_http_res_get_header`, a collaborator, is modelled as
that optional field).  Output: the updated `close` flag and the
response's `Connection:` header as posted with the header write.  Note
the containment test is the case-sensitive `strstr`. -/
def http_sconn_cbdone_res (close0 : Bool) (conn : Option (List Nat)) :
    Bool × Option (List Nat) :=
  let c := if (match conn with
               | some v => strstr_has v closeStr
               | none => false) then true else close0
  let conn2 := if c then some closeStr else conn
  (c, conn2)

/-- What the session does after its header write completes successfully. -/
inductive TxOutcome where
  | writeBody (data : List Nat)
  | closeConn
  | nextRequest
deriving DecidableEq

/-- Translation of the success path of `http_sconn_txdone`
(server.c:184-225): for a `HEAD` request the body size is forced to 0;
a non-zero size posts the body write; otherwise the connection closes
when the `close` flag is set and resets for the next request when it is
not. -/
def http_sconn_txdone (method resBody : List Nat) (close : Bool) : TxOutcome :=
  let size := if method == headStr then 0 else resBody.length
  if size ≠ 0 then .writeBody resBody
  else if close then .closeConn
  else .nextRequest

/-- Server lifecycle state for the start/stop claims: the `starts`
counter (a C `int`, so it can go below zero on unbalanced calls), the
`closed` flag, whether the listener endpoint exists and is accepting,
and the live sessions' `closed` flags. -/
structure ServerState where
  starts : Int
  closed : Bool
  listening : Bool
  conns : List Bool
deriving DecidableEq

/-- Translation of `nni_http_server_start` (server.c:788-802): only when
`starts == 0` is the listener created, bound and its first accept posted
(`http_server_start`, server.c:771-786; `bindOk` stands for the
transport's verdict); any failure is returned without touching `starts`,
and every success increments `starts`. -/
def nni_http_server_start (s : ServerState) (bindOk : Bool) :
    Except Unit ServerState :=
  if s.starts = 0 then
    if bindOk then .ok { s with listening := true, starts := s.starts + 1 }
    else .error ()
  else .ok { s with starts := s.starts + 1 }

/-- Translation of `http_server_stop` (server.c:804-825): a no-op when
already closed, otherwise set `closed`, close the listening endpoint and
hard-close every live session. -/
def http_server_stop (s : ServerState) : ServerState :=
  if s.closed then s
  else { s with closed := true, listening := false,
                conns := s.conns.map (fun _ => true) }

/-- Translation of `nni_http_server_stop` (server.c:827-836): decrement
`starts` and run the teardown only when it reaches 0. -/
def nni_http_server_stop (s : ServerState) : ServerState :=
  let s2 : ServerState := { s with starts := s.starts - 1 }
  if s2.starts = 0 then http_server_stop s2 else s2

/-- Claim C1: the claim says every `%HH` escape with two hex digits is
replaced by exactly one output byte, consuming exactly the three bytes of
the escape.  The code disagrees: on `"%41x"` (bytes 37,52,49,120) the
decode loop emits the decoded byte twice and swallows the following `x`,
producing `"AA"` where the specified decoding produces `"Ax"`. -/
theorem C1_percent_decode_divergence :
    http_percent_decode (strBytes "%41x") = some (strBytes "AA") ∧
    spec_percent_decode (strBytes "%41x") = strBytes "Ax" ∧
    http_percent_decode (strBytes "%41x") ≠ some (spec_percent_decode (strBytes "%41x")) := by
  refine ⟨?_, by decide, ?_⟩
  · simp [http_percent_decode, strBytes, isxdigit, http_hexval]
  · intro h
    rw [show spec_percent_decode (strBytes "%41x") = strBytes "Ax" from by decide] at h
    rw [show http_percent_decode (strBytes "%41x") = some (strBytes "AA") from by
      simp [http_percent_decode, strBytes, isxdigit, http_hexval]] at h
    exact absurd h (by decide)

/-- Claim C2, counterexample: with the `close` flag clear and a response
`Connection:` header of `"CLOSE"`, the code leaves the flag clear even
though the header contains `close` case-insensitively, so `close` is not
equivalent to the claimed case-insensitive containment test. -/
theorem C2_counterexample :
    ¬ (((http_sconn_cbdone_res false (some (strBytes "CLOSE"))).1 = true) ↔
       (nni_strcasestr_has (strBytes "CLOSE") closeStr = true ∨ false = true)) := by
  decide

/-- Claim C2 as amended: after a successful callback with a non-null
response, the session's `close` flag becomes true exactly when it was
already true or the response `Connection:` header contains the substring
`close` under the case-sensitive `strstr` comparison, and whenever the
flag is set the `Connection:` header is force-set to `close` before the
header write is posted. -/
theorem C2_close_flag (close0 : Bool) (conn : Option (List Nat)) :
    ((http_sconn_cbdone_res close0 conn).1 = true ↔
      (close0 = true ∨ ∃ v, conn = some v ∧ strstr_has v closeStr = true)) ∧
    (http_sconn_cbdone_res close0 conn).2 =
      (if (http_sconn_cbdone_res close0 conn).1 = true then some closeStr else conn) := by
  unfold http_sconn_cbdone_res
  cases conn with
  | none => cases close0 <;> simp
  | some v => cases close0 <;> cases h : strstr_has v closeStr <;> simp [h]

/-- Claim C4: a handler path matches the canonified request path exactly
when it is a byte prefix of it and the byte at the handler path's length
is the end of the string, a `/` ending the string, or (only for a
directory handler) a `/` with further characters; in particular with
`is_dir` the path `"/static"` matches `"/static/foo"` but not
`"/staticx"`. -/
theorem C4_path_match :
    (∀ (hpath path : List Nat) (isDir : Bool),
      pathMatch hpath path isDir = true ↔
        (List.isPrefixOf hpath path = true ∧
          (path.drop hpath.length = [] ∨
           path.drop hpath.length = [47] ∨
           (isDir = true ∧ (path.drop hpath.length).head? = some 47 ∧
             2 ≤ (path.drop hpath.length).length)))) ∧
    pathMatch (strBytes "/static") (strBytes "/static/foo") true = true ∧
    pathMatch (strBytes "/static") (strBytes "/staticx") true = false := by
  refine ⟨?_, by rfl, by rfl⟩
  intro hpath path isDir
  unfold pathMatch
  cases hp : List.isPrefixOf hpath path with
  | false => simp
  | true =>
    cases hd : path.drop hpath.length with
    | nil => simp
    | cons c rest =>
      by_cases hc : c = 47
      · subst hc
        cases rest with
        | nil => simp
        | cons d rest2 => cases isDir <;> simp
      · simp [hc]

/-- Percent decoding leaves a string without any `%` byte unchanged. -/
theorem http_percent_decode_no_pct : ∀ l : List Nat, 37 ∉ l → http_percent_decode l = some l := by
  intro l
  induction l with
  | nil => intro _; simp [http_percent_decode]
  | cons c tl ih =>
    intro h
    rw [List.mem_cons, not_or] at h
    have hc : ¬ c = 37 := fun e => h.1 e.symm
    rw [http_percent_decode.eq_def]
    simp [hc, ih h.2]

/-- Claim C8, counterexample: canonify is not idempotent.  On the URI
`"%%41xy"` the first pass yields `"%AAy"` (the fallen-through second copy
of the decoded byte manufactures a fresh `%AA` escape), and the second
pass decodes that escape, yielding the two bytes 170,170. -/
theorem C8_counterexample :
    http_uri_canonify (strBytes "%%41xy") = some (strBytes "%AAy") ∧
    http_uri_canonify (cstr (strBytes "%AAy")) = some [170, 170] ∧
    http_uri_canonify (cstr (strBytes "%AAy")) ≠ some (cstr (strBytes "%AAy")) := by
  refine ⟨?_, ?_, ?_⟩
  · simp [http_uri_canonify, http_percent_decode, isxdigit, http_hexval, startsWithCase,
      httpPre, httpsPre, strBytes, lowerStr, lowerByte]
  · simp [http_uri_canonify, http_percent_decode, isxdigit, http_hexval, startsWithCase,
      httpPre, httpsPre, strBytes, lowerStr, lowerByte, cstr]
  · intro h
    rw [show http_uri_canonify (cstr (strBytes "%AAy")) = some [170, 170] from by
      simp [http_uri_canonify, http_percent_decode, isxdigit, http_hexval, startsWithCase,
        httpPre, httpsPre, strBytes, lowerStr, lowerByte, cstr]] at h
    exact absurd h (by decide)

/-- Claim C8 as amended: canonify is idempotent on canonified output that
contains no `%` and no `?` byte and does not begin (case-insensitively)
with `http://` or `https://`; outside that guard the fall-through in the
decode loop can manufacture new escapes (see the counterexample). -/
theorem C8_canonify_idem_guarded (u v : List Nat)
    (_hu : http_uri_canonify u = some v)
    (hq : (cstr v).all (fun c => c != 37 && c != 63) = true)
    (h1 : startsWithCase httpPre (cstr v) = false)
    (h2 : startsWithCase httpsPre (cstr v) = false) :
    http_uri_canonify (cstr v) = some (cstr v) := by
  have hall : ∀ c ∈ cstr v, c ≠ 37 ∧ c ≠ 63 := by
    intro c hc
    have hb := List.all_eq_true.mp hq c hc
    simpa using hb
  have htw : (cstr v).takeWhile (fun c => c != 63) = cstr v := by
    rw [List.takeWhile_eq_self_iff]
    intro c hc
    simpa using (hall c hc).2
  simp [http_uri_canonify, htw, h1, h2]
  exact http_percent_decode_no_pct _ (fun hmem => (hall 37 hmem).1 rfl)

/-- Claim C8 witness for the amended statement: the request URI `"/ab"`
canonifies to itself and satisfies the guard, so a second canonify
returns it unchanged. -/
theorem C8_witness :
    http_uri_canonify (cstr (strBytes "/ab")) = some (cstr (strBytes "/ab")) :=
  C8_canonify_idem_guarded (strBytes "/ab") (strBytes "/ab")
    (by simp [http_uri_canonify, http_percent_decode, startsWithCase,
      httpPre, httpsPre, strBytes, lowerStr, lowerByte])
    (by decide) (by decide) (by decide)

/-- The registration collision test characterized: with a well-formed new
handler, `http_server_add_handler` reports `address-in-use` exactly when
some registered handler has the same method, a compatible host, and a
path agreeing with the new trimmed path on the first
`min(len(existing), len(new))` bytes. -/
theorem add_handler_addrinuse_iff (hs : List HttpHandler) (hh : NniHttpHandler)
    (m p : List Nat) (hm : hh.h_method = some m) (hp : hh.h_path = some p)
    (hcb : hh.h_has_cb = true) (hhead : ¬ m = headStr) :
    http_server_add_handler hs hh = .error .EADDRINUSE ↔
      ∃ h2 ∈ hs, hostCompat h2.h_host hh.h_host = true ∧ h2.h_method = m ∧
        pathsCollide h2.h_path (trimSlashes p) = true := by
  unfold http_server_add_handler
  rw [hm, hp]
  simp [hcb, hhead, List.any_eq_true]

/-- Host compatibility unfolded: the pair is compatible exactly when at
least one host is absent or both are present and equal after ASCII
lower-casing. -/
theorem hostCompat_iff (x y : Option (List Nat)) :
    hostCompat x y = true ↔
      (x = none ∨ y = none ∨
        ∃ a b, x = some a ∧ y = some b ∧ lowerStr a = lowerStr b) := by
  cases x <;> cases y <;> simp [hostCompat]

/-- Claim C3: registration fails with `address-in-use` exactly when some
already-registered handler has a string-equal method, a compatible host
(case-insensitively equal, or at least one host absent), and a path that
agrees with the new trailing-slash-trimmed path on the first
`min(len(existing), len(new))` bytes. -/
theorem C3_add_handler_conflict (hs : List HttpHandler) (hh : NniHttpHandler)
    (m p : List Nat) (hm : hh.h_method = some m) (hp : hh.h_path = some p)
    (hcb : hh.h_has_cb = true) (hhead : ¬ m = headStr) :
    http_server_add_handler hs hh = .error .EADDRINUSE ↔
      ∃ h2 ∈ hs, h2.h_method = m ∧
        (h2.h_host = none ∨ hh.h_host = none ∨
          ∃ a b, h2.h_host = some a ∧ hh.h_host = some b ∧ lowerStr a = lowerStr b) ∧
        h2.h_path.take (min h2.h_path.length (trimSlashes p).length) =
          (trimSlashes p).take (min h2.h_path.length (trimSlashes p).length) := by
  rw [add_handler_addrinuse_iff hs hh m p hm hp hcb hhead]
  constructor
  · rintro ⟨h2, hmem, hho, hme, hpc⟩
    refine ⟨h2, hmem, hme, (hostCompat_iff _ _).mp hho, ?_⟩
    simpa [pathsCollide] using hpc
  · rintro ⟨h2, hmem, hme, hho, hpc⟩
    exact ⟨h2, hmem, (hostCompat_iff _ _).mpr hho, hme,
      by simpa [pathsCollide] using hpc⟩

/-- Claim C3 witness: registering `"/ab"` (GET, no host) after `"/abc"`
(GET, no host) is rejected with `address-in-use`. -/
theorem C3_witness :
    http_server_add_handler [⟨getStr, strBytes "/abc", none, false, false⟩]
      ⟨some getStr, some (strBytes "/ab"), none, false, false, true⟩ =
      .error .EADDRINUSE :=
  (C3_add_handler_conflict [⟨getStr, strBytes "/abc", none, false, false⟩]
    ⟨some getStr, some (strBytes "/ab"), none, false, false, true⟩
    getStr (strBytes "/ab") rfl rfl rfl (by decide)).mpr
    ⟨⟨getStr, strBytes "/abc", none, false, false⟩, by decide, rfl, Or.inl rfl,
      by decide⟩

/-- A path made of `/` bytes only trims to the empty string. -/
theorem trimSlashes_all_slash (p : List Nat) (hp : ∀ c ∈ p, c = 47) :
    trimSlashes p = [] := by
  unfold trimSlashes
  have hd : p.reverse.dropWhile (fun c => c == 47) = [] := by
    rw [List.dropWhile_eq_nil_iff]
    intro x hx
    simp [hp x (List.mem_reverse.mp hx)]
  simp [hd]

/-- Claim C10: a handler registered with a path consisting only of `/`
bytes is stored with the empty path, and after that every add whose
method string-equals it and whose host is compatible is rejected with
`address-in-use`, because the compared common span has length
`min(0, len) = 0` and the empty comparison always succeeds. -/
theorem C10_slash_handler_blocks_all (p : List Nat) (hp : ∀ c ∈ p, c = 47)
    (hs : List HttpHandler) (h2 : HttpHandler) (hh : NniHttpHandler) (m q : List Nat)
    (hmem : h2 ∈ hs) (hpath : h2.h_path = trimSlashes p)
    (hm : hh.h_method = some m) (hmeq : h2.h_method = m) (hhead : ¬ m = headStr)
    (hq : hh.h_path = some q) (hcb : hh.h_has_cb = true)
    (hhost : hostCompat h2.h_host hh.h_host = true) :
    trimSlashes p = [] ∧ http_server_add_handler hs hh = .error .EADDRINUSE := by
  have htrim := trimSlashes_all_slash p hp
  refine ⟨htrim, ?_⟩
  rw [add_handler_addrinuse_iff hs hh m q hm hq hcb hhead]
  refine ⟨h2, hmem, hhost, hmeq, ?_⟩
  rw [hpath, htrim]
  simp [pathsCollide]

/-- Claim C10 witness: after registering `"/"` (stored as the empty
path, GET, no host), adding `"/x"` (GET, no host) fails with
`address-in-use`. -/
theorem C10_witness :
    trimSlashes (strBytes "/") = [] ∧
    http_server_add_handler [⟨getStr, [], none, false, false⟩]
      ⟨some getStr, some (strBytes "/x"), none, false, false, true⟩ =
      .error .EADDRINUSE :=
  C10_slash_handler_blocks_all (strBytes "/") (by decide)
    [⟨getStr, [], none, false, false⟩] ⟨getStr, [], none, false, false⟩
    ⟨some getStr, some (strBytes "/x"), none, false, false, true⟩ getStr
    (strBytes "/x") (by decide) (by decide) rfl rfl (by decide) rfl rfl rfl

/-- When no handler matches host, path and method all at once, the
dispatch loop ends with `methodNotAllowed` exactly when `badmeth` was
already set or some handler matched host and path, and with `notFound`
otherwise. -/
theorem lookupAux_no_full (reqHost : Option (List Nat)) (path m : List Nat)
    (hs : List HttpHandler)
    (hnone : ∀ h ∈ hs, hostMatch h.h_host reqHost = true →
      pathMatch h.h_path path h.h_is_dir = true →
      methodMatch m h.h_method = false) :
    ∀ b : Bool, lookupAux reqHost path m hs b =
      (if b || hs.any (fun h =>
          hostMatch h.h_host reqHost && pathMatch h.h_path path h.h_is_dir)
       then .methodNotAllowed else .notFound) := by
  induction hs with
  | nil => intro b; cases b <;> simp [lookupAux]
  | cons h rest ih =>
    intro b
    have hnrest : ∀ h2 ∈ rest, hostMatch h2.h_host reqHost = true →
        pathMatch h2.h_path path h2.h_is_dir = true →
        methodMatch m h2.h_method = false :=
      fun h2 hh2 => hnone h2 (List.mem_cons_of_mem _ hh2)
    by_cases h1 : (hostMatch h.h_host reqHost &&
        pathMatch h.h_path path h.h_is_dir) = true
    · rw [Bool.and_eq_true] at h1
      have hmm : methodMatch m h.h_method = false :=
        hnone h (List.mem_cons_self _ _) h1.1 h1.2
      simp [lookupAux, h1.1, h1.2, hmm, ih hnrest]
    · rw [Bool.and_eq_true, not_and_or] at h1
      cases h1 with
      | inl hx => simp [lookupAux, hx, ih hnrest]
      | inr hx =>
        by_cases hy : hostMatch h.h_host reqHost = true
        · simp [lookupAux, hy, hx, ih hnrest]
        · simp [lookupAux, hy, hx, ih hnrest]

/-- Claim C7: when no handler fully matches the request, the session
synthesizes 405 (method not allowed) exactly when some handler matched
host and path but was disqualified by method, and 404 (not found)
exactly when no handler matched host and path at all. -/
theorem C7_405_vs_404 (hs : List HttpHandler) (req : NniHttpReq)
    (close0 : Bool) (p : List Nat)
    (hv : req.version = some http11)
    (hcanon : http_uri_canonify req.uri = some p)
    (hnone : ∀ h ∈ hs, hostMatch h.h_host req.hostHeader = true →
      pathMatch h.h_path (cstr p) h.h_is_dir = true →
      methodMatch req.method h.h_method = false) :
    ((http_sconn_rxdone req close0 hs).2 = .errorResp 405 ↔
      ∃ h ∈ hs, hostMatch h.h_host req.hostHeader = true ∧
        pathMatch h.h_path (cstr p) h.h_is_dir = true) ∧
    ((http_sconn_rxdone req close0 hs).2 = .errorResp 404 ↔
      ¬ ∃ h ∈ hs, hostMatch h.h_host req.hostHeader = true ∧
        pathMatch h.h_path (cstr p) h.h_is_dir = true) := by
  have hpre : List.isPrefixOf http1dot http11 = true := by decide
  have hlk := lookupAux_no_full req.hostHeader (cstr p) req.method hs hnone false
  by_cases hex : hs.any (fun h =>
      hostMatch h.h_host req.hostHeader &&
        pathMatch h.h_path (cstr p) h.h_is_dir) = true
  · have hsome : ∃ h ∈ hs, hostMatch h.h_host req.hostHeader = true ∧
        pathMatch h.h_path (cstr p) h.h_is_dir = true := by
      simpa [List.any_eq_true, Bool.and_eq_true] using hex
    simp [http_sconn_rxdone, hv, hpre, hcanon, http_server_lookup, hlk, hex, hsome]
  · have hnot : ¬ ∃ h ∈ hs, hostMatch h.h_host req.hostHeader = true ∧
        pathMatch h.h_path (cstr p) h.h_is_dir = true := by
      simpa [List.any_eq_true, Bool.and_eq_true] using hex
    simp [http_sconn_rxdone, hv, hpre, hcanon, http_server_lookup, hlk, hex, hnot]

/-- Claim C7 witness: with only `{method:"POST", path:"/x"}` registered, a
`GET /x HTTP/1.1` request is answered 405, not 404. -/
theorem C7_witness :
    (http_sconn_rxdone ⟨some http11, getStr, strBytes "/x", none, none⟩ false
      [⟨strBytes "POST", strBytes "/x", none, false, false⟩]).2 =
    .errorResp 405 :=
  (C7_405_vs_404 [⟨strBytes "POST", strBytes "/x", none, false, false⟩]
    ⟨some http11, getStr, strBytes "/x", none, none⟩ false (strBytes "/x") rfl
    (by simp [http_uri_canonify, http_percent_decode, startsWithCase, httpPre,
      httpsPre, strBytes, lowerStr, lowerByte])
    (by decide)).1.mpr
    ⟨⟨strBytes "POST", strBytes "/x", none, false, false⟩, by decide, by decide,
      by decide⟩

/-- Claim C5: version policy of `http_sconn_rxdone` for a session whose
`close` flag is clear.  A request without a version is answered 400 with
`close=true`; a version not beginning with `HTTP/1.` is answered 505 with
`close=true`; a version beginning with `HTTP/1.` other than exactly
`HTTP/1.1` forces `close=true` but the request is still processed — the
outcome is exactly what the canonify-and-lookup path dictates (dispatch,
405 or 404), never a version error; exactly `HTTP/1.1` (with no request
`Connection:` header) leaves the connection persistent. -/
theorem C5_version_policy (hs : List HttpHandler) (req : NniHttpReq) (v : List Nat) :
    (req.version = none → http_sconn_rxdone req false hs = (true, .errorResp 400)) ∧
    (req.version = some v → List.isPrefixOf http1dot v = false →
      http_sconn_rxdone req false hs = (true, .errorResp 505)) ∧
    (req.version = some v → List.isPrefixOf http1dot v = true → ¬ v = http11 →
      http_sconn_rxdone req false hs =
        (true,
         match http_uri_canonify req.uri with
         | none => .undefinedRead
         | some path =>
           match http_server_lookup hs req.hostHeader (cstr path) req.method with
           | .found h => .dispatch h
           | .methodNotAllowed => .errorResp 405
           | .notFound => .errorResp 404)) ∧
    (req.version = some http11 → req.connHeader = none →
      (http_sconn_rxdone req false hs).1 = false) := by
  have hpre : List.isPrefixOf http1dot http11 = true := by decide
  refine ⟨?_, ?_, ?_, ?_⟩
  · intro h
    simp [http_sconn_rxdone, h]
  · intro h hp
    simp [http_sconn_rxdone, h, hp]
  · intro h hp hne
    simp only [http_sconn_rxdone, h, hp, Bool.not_eq_true]
    cases hc : http_uri_canonify req.uri with
    | none => simp [hne]
    | some path =>
      cases hlook : http_server_lookup hs req.hostHeader (cstr path) req.method <;>
        simp [hlook, hne]
  · intro h hconn
    simp only [http_sconn_rxdone, h, hpre, hconn]
    cases hc : http_uri_canonify req.uri with
    | none => simp
    | some path =>
      cases hlook : http_server_lookup hs req.hostHeader (cstr path) req.method <;>
        simp [hlook]

/-- Claim C5 witness: the four version cases at concrete requests — no
version (400, close), `HTTP/2.0` (505, close), `HTTP/1.0` for `/` on an
empty registry (processed through lookup to a 404, close forced, not a
version error), `HTTP/1.1` with no `Connection:` header (persistent). -/
theorem C5_witness :
    http_sconn_rxdone ⟨none, getStr, [47], none, none⟩ false [] =
      (true, .errorResp 400) ∧
    http_sconn_rxdone ⟨some (strBytes "HTTP/2.0"), getStr, [47], none, none⟩
      false [] = (true, .errorResp 505) ∧
    http_sconn_rxdone ⟨some (strBytes "HTTP/1.0"), getStr, [47], none, none⟩
      false [] = (true, .errorResp 404) ∧
    (http_sconn_rxdone ⟨some http11, getStr, [47], none, none⟩ false []).1 =
      false :=
  ⟨(C5_version_policy [] ⟨none, getStr, [47], none, none⟩ [] ).1 rfl,
   (C5_version_policy [] ⟨some (strBytes "HTTP/2.0"), getStr, [47], none, none⟩
     (strBytes "HTTP/2.0")).2.1 rfl (by decide),
   ((C5_version_policy [] ⟨some (strBytes "HTTP/1.0"), getStr, [47], none, none⟩
     (strBytes "HTTP/1.0")).2.2.1 rfl (by decide) (by decide)).trans
     (by simp [http_uri_canonify, http_percent_decode, startsWithCase, httpPre,
       httpsPre, strBytes, lowerStr, lowerByte, cstr, http_server_lookup,
       lookupAux]),
   (C5_version_policy [] ⟨some http11, getStr, [47], none, none⟩
     http11).2.2.2 rfl rfl⟩

/-- Claim C6: a `HEAD` request matches a registered `GET` handler whose
host and path checks pass (here placed first, so the lookup returns it),
and after the response headers are written successfully a `HEAD` session
transmits zero body bytes regardless of the response body, then reads
the next request when the `close` flag is clear and closes when it is
set. -/
theorem C6_head_semantics (hs : List HttpHandler) (h : HttpHandler)
    (reqHost : Option (List Nat)) (path : List Nat)
    (hm : h.h_method = getStr) (hhm : hostMatch h.h_host reqHost = true)
    (hpm : pathMatch h.h_path path h.h_is_dir = true) :
    http_server_lookup (h :: hs) reqHost path headStr = .found h ∧
    (∀ body : List Nat, http_sconn_txdone headStr body false = .nextRequest) ∧
    (∀ body : List Nat, http_sconn_txdone headStr body true = .closeConn) := by
  have hmm : methodMatch headStr getStr = true := by decide
  refine ⟨?_, ?_, ?_⟩
  · simp [http_server_lookup, lookupAux, hhm, hpm, hm, hmm]
  · intro body
    simp [http_sconn_txdone]
  · intro body
    simp [http_sconn_txdone]

/-- Claim C6 witness: a `HEAD` request for `"/a"` finds the registered
`GET /a` handler, and with a 100-byte response body no body write is
posted — the session reads the next request (flag clear) or closes
(flag set). -/
theorem C6_witness :
    http_server_lookup [⟨getStr, strBytes "/a", none, false, false⟩] none
      (strBytes "/a") headStr =
      .found ⟨getStr, strBytes "/a", none, false, false⟩ ∧
    http_sconn_txdone headStr (List.replicate 100 120) false = .nextRequest ∧
    http_sconn_txdone headStr (List.replicate 100 120) true = .closeConn :=
  ⟨(C6_head_semantics [] ⟨getStr, strBytes "/a", none, false, false⟩ none
      (strBytes "/a") rfl rfl (by decide)).1,
   (C6_head_semantics [] ⟨getStr, strBytes "/a", none, false, false⟩ none
      (strBytes "/a") rfl rfl (by decide)).2.1 (List.replicate 100 120),
   (C6_head_semantics [] ⟨getStr, strBytes "/a", none, false, false⟩ none
      (strBytes "/a") rfl rfl (by decide)).2.2 (List.replicate 100 120)⟩

/-- Claim C9: starts and stops are balanced over the `starts` counter.
Every successful start increments `starts`; a start with `starts ≠ 0`
only increments the counter; only a start at `starts = 0` creates, binds
and begins accepting on the listener.  Every stop decrements `starts`;
the stop that brings `starts` to 0 (on a not-yet-closed server) sets
`closed`, closes the listener and hard-closes every live session; any
other stop only decrements the counter. -/
theorem C9_start_stop_balanced (s : ServerState) (bindOk : Bool) :
    (∀ s2 : ServerState, nni_http_server_start s bindOk = .ok s2 →
      s2.starts = s.starts + 1) ∧
    (¬ s.starts = 0 → nni_http_server_start s bindOk =
      .ok { s with starts := s.starts + 1 }) ∧
    (s.starts = 0 → bindOk = true → nni_http_server_start s bindOk =
      .ok { s with starts := s.starts + 1, listening := true }) ∧
    ((nni_http_server_stop s).starts = s.starts - 1) ∧
    (s.starts - 1 = 0 → s.closed = false → nni_http_server_stop s =
      { s with starts := s.starts - 1, closed := true, listening := false,
               conns := s.conns.map (fun _ => true) }) ∧
    (¬ s.starts - 1 = 0 → nni_http_server_stop s =
      { s with starts := s.starts - 1 }) := by
  refine ⟨?_, ?_, ?_, ?_, ?_, ?_⟩
  · intro s2 h2
    unfold nni_http_server_start at h2
    by_cases h0 : s.starts = 0
    · cases bindOk with
      | false => simp [h0] at h2
      | true =>
        simp [h0] at h2
        rw [← h2]
        simp [h0]
    · simp [h0] at h2
      rw [← h2]
  · intro h0
    simp [nni_http_server_start, h0]
  · intro h0 hb
    simp [nni_http_server_start, h0, hb]
  · unfold nni_http_server_stop http_server_stop
    by_cases h0 : s.starts - 1 = 0 <;> by_cases hc : s.closed <;> simp [h0, hc]
  · intro h0 hc
    simp [nni_http_server_stop, http_server_stop, h0, hc]
  · intro h0
    simp [nni_http_server_stop, h0]

/-- Claim C9 witness: on a listening server with `starts = 1` and two
live sessions, one stop tears everything down; on a fresh server with
`starts = 0`, a successful start flips it to listening with
`starts = 1`. -/
theorem C9_witness :
    nni_http_server_stop ⟨1, false, true, [false, false]⟩ =
      ⟨0, true, false, [true, true]⟩ ∧
    nni_http_server_start ⟨0, false, false, []⟩ true =
      .ok ⟨1, false, true, []⟩ :=
  ⟨(C9_start_stop_balanced ⟨1, false, true, [false, false]⟩ true).2.2.2.2.1
      (by decide) rfl,
   (C9_start_stop_balanced ⟨0, false, false, []⟩ true).2.2.1 rfl rfl⟩
